import Mathlib

/-!
Verification of the `timer` repository (stage-based announcement scheduler,
legacy exponential scheduler, time-string parsing/formatting, and the audio
renderer) against its natural-language specification.

Embedding conventions:
* Python strings are Lean `String`s; character-level scanning works on the
  underlying `List Char`.
* Python `re.search` on the patterns `(\d+)h`, `(\d+)m`, `(\d+)s` is embedded
  as a left-to-right scan returning the value of the first maximal digit run
  that is immediately followed by the unit letter (ASCII digits; the claims
  only involve ASCII input).
* Python `int(str)` is embedded for ASCII: optional surrounding whitespace,
  optional sign, a nonempty digit sequence possibly containing single
  underscores between digits.
* Python machine integers are `Int`/`Nat`; Python `//` and `%` are `Int.fdiv`
  and `Int.fmod` (floor division, remainder with the divisor's sign), which
  agree with Python on all inputs.
* Python floats used for audio durations are embedded as exact rationals `ℚ`;
  `int(x)` truncation toward zero on a nonnegative rational is `⌊x⌋`.
* Fallible code returns `Except String` mirroring `raise ValueError(...)`.
-/

namespace Timer

/-- Decimal value of an ASCII digit character. From the source use of
`int(...)` on digit groups. -/
def digitVal (c : Char) : Nat := c.toNat - 48

/-- Value of a list of ASCII digit characters read in base 10. -/
def digitsVal (l : List Char) : Nat := l.foldl (fun a c => a * 10 + digitVal c) 0

/-- Embedding of `re.search(r"(\d+)u", s)` followed by `int(group(1))` for a
unit letter `u`: scan left to right, tracking the value of the digit run
immediately preceding the current position; the first time the unit letter is
seen right after a nonempty digit run, return that run's value. -/
def searchUnit (u : Char) : Option Nat → List Char → Option Nat
  | _, [] => none
  | run, c :: rest =>
    if c.isDigit then searchUnit u (some ((run.getD 0) * 10 + digitVal c)) rest
    else if c == u then
      match run with
      | some n => some n
      | none => searchUnit u none rest
    else searchUnit u none rest

/-- Normalization performed by `parse_time_string`:
`str(time_str).replace(" ", "").lower()` (ASCII lowering). -/
def normalize (s : String) : List Char :=
  (s.data.filter fun c => c ≠ ' ').map Char.toLower

/-- Validity of the digit/underscore tail of a Python integer literal:
every underscore is followed by a digit (no trailing or doubled underscores). -/
def uRun : List Char → Bool
  | [] => true
  | c :: rest =>
    if c.isDigit then uRun rest
    else if c == '_' then
      match rest with
      | [] => false
      | d :: r => d.isDigit && uRun (d :: r)
    else false

/-- A valid unsigned Python integer literal body: nonempty, starts with a
digit, underscores only singly between digits. -/
def pyDigits : List Char → Bool
  | [] => false
  | c :: rest => c.isDigit && uRun rest

/-- Strip leading and trailing whitespace, as Python `int(str)` does. -/
def stripWS (l : List Char) : List Char :=
  ((l.dropWhile Char.isWhitespace).reverse.dropWhile Char.isWhitespace).reverse

/-- Embedding of Python `int(str)` (ASCII): optional surrounding whitespace,
optional `+`/`-` sign, then digits with optional single underscores between
them; `none` models `ValueError`. -/
def pyInt (l : List Char) : Option Int :=
  let t := stripWS l
  match t with
  | '+' :: rest =>
    if pyDigits rest then some (digitsVal (rest.filter fun c => c ≠ '_')) else none
  | '-' :: rest =>
    if pyDigits rest then some (-(digitsVal (rest.filter fun c => c ≠ '_') : Int)) else none
  | _ => if pyDigits t then some (digitsVal (t.filter fun c => c ≠ '_')) else none

/-- The summed value of the three unit components extracted by
`parse_time_string` (hours, minutes, seconds patterns applied independently). -/
def unitSum (s : String) : Nat :=
  let t := normalize s
  (searchUnit 'h' none t).getD 0 * 3600
    + (searchUnit 'm' none t).getD 0 * 60
    + (searchUnit 's' none t).getD 0

/-- Embedding of `parse_time_string` (src/src/time_utils.py, string branch;
the numeric branch `isinstance(time_str, (int, float))` just truncates and is
outside the string grammar the claims are about). -/
def parse_time_string (s : String) : Except String Int :=
  let t := normalize s
  let hours := searchUnit 'h' none t
  let minutes := searchUnit 'm' none t
  let seconds := searchUnit 's' none t
  let total : Nat := hours.getD 0 * 3600 + minutes.getD 0 * 60 + seconds.getD 0
  if total = 0 then
    match pyInt t with
    | some n => Except.ok n
    | none => Except.error ("Invalid time format: " ++ String.mk t)
  else
    Except.ok (total : Int)

/-- Left-pad a string with `'0'` to width `w`; the digit part of Python's
`f"{n:0wd}"` formatting. -/
def zeroPad (w : Nat) (s : String) : String :=
  String.mk (List.replicate (w - s.length) '0') ++ s

/-- Embedding of Python `f"{n:02d}"`: minimum width 2, zero fill after the
sign. -/
def pad02 (n : Int) : String :=
  if n < 0 then "-" ++ zeroPad 1 (Nat.repr n.natAbs) else zeroPad 2 (Nat.repr n.natAbs)

/-- Embedding of `format_time` (src/src/time_utils.py): `MM:SS`, zero-padded,
minutes unbounded; Python `//`/`%` are floor division and sign-of-divisor
remainder. -/
def format_time (seconds : Int) : String :=
  let minutes := seconds.fdiv 60
  let secs := seconds.fmod 60
  pad02 minutes ++ ":" ++ pad02 secs

/-- Embedding of `format_time_announcement` (src/src/time_utils.py) on
nonnegative integer inputs (the Python function first truncates its argument
with `int(seconds)`; the claims quantify over nonnegative integers). -/
def format_time_announcement (seconds : Nat) : String :=
  if seconds ≥ 60 then
    let minutes := seconds / 60
    let leftover_seconds := seconds % 60
    if leftover_seconds = 0 then
      let minute_word := if minutes = 1 then "minute" else "minutes"
      Nat.repr minutes ++ " " ++ minute_word
    else
      let minute_word := if minutes = 1 then "minute" else "minutes"
      let second_word := if leftover_seconds = 1 then "second" else "seconds"
      Nat.repr minutes ++ " " ++ minute_word ++ " "
        ++ Nat.repr leftover_seconds ++ " " ++ second_word
  else
    let second_word := if seconds = 1 then "second" else "seconds"
    Nat.repr seconds ++ " " ++ second_word

/-- Embedding of the `Stage` dataclass (src/src/stage.py). Thresholds and
intervals are nonnegative integer second counts per the data model. -/
structure Stage where
  name : String
  duration_threshold : Nat
  announcement_interval : Nat
  verbosity : String
deriving DecidableEq, Repr

/-- Embedding of `Stage.format_announcement` (src/src/stage.py): low verbosity
renders the bare number, high verbosity a full phrase ending in
`"remaining"`. -/
def Stage.format_announcement (s : Stage) (remaining_seconds : Nat) : String :=
  if s.verbosity = "low" then Nat.repr remaining_seconds
  else if remaining_seconds ≥ 60 then
    let minutes := remaining_seconds / 60
    let leftover := remaining_seconds % 60
    if leftover = 0 then
      let minute_word := if minutes = 1 then "minute" else "minutes"
      Nat.repr minutes ++ " " ++ minute_word ++ " remaining"
    else
      let minute_word := if minutes = 1 then "minute" else "minutes"
      let second_word := if leftover = 1 then "second" else "seconds"
      Nat.repr minutes ++ " " ++ minute_word ++ " "
        ++ Nat.repr leftover ++ " " ++ second_word ++ " remaining"
  else
    let second_word := if remaining_seconds = 1 then "second" else "seconds"
    Nat.repr remaining_seconds ++ " " ++ second_word ++ " remaining"

/-- A stage configuration: the list of stages, stored sorted by
`duration_threshold` descending as `StageConfig.__init__` ensures. -/
structure StageConfig where
  stages : List Stage
deriving Repr

/-- The sort performed by `StageConfig.__init__`:
`sorted(stages, key=lambda s: s.duration_threshold, reverse=True)`
(Python's stable sort, descending); embedded as the stable insertion
sort. -/
def StageConfig.init (stages : List Stage) : StageConfig :=
  ⟨stages.insertionSort fun a b => b.duration_threshold ≤ a.duration_threshold⟩

/-- Embedding of `StageConfig.default`: 10s/1s/low, 60s/10s/high,
0s/60s/high. -/
def StageConfig.default : StageConfig :=
  StageConfig.init
    [ ⟨"countdown", 10, 1, "low"⟩,
      ⟨"one_minute", 60, 10, "high"⟩,
      ⟨"everything", 0, 60, "high"⟩ ]

/-- Scanner inside `StageConfig._get_next_threshold`: once the current
stage's name has been found, return the following stage's threshold;
0 if none follows. -/
def nextThresholdAux (curName : String) : Bool → List Stage → Nat
  | _, [] => 0
  | true, s :: _ => s.duration_threshold
  | false, s :: rest => nextThresholdAux curName (s.name == curName) rest

/-- Embedding of `StageConfig._get_next_threshold` (src/src/stage.py). -/
def StageConfig.getNextThreshold (cfg : StageConfig) (cur : Stage) : Nat :=
  nextThresholdAux cur.name false cfg.stages

/-- The per-stage `while current > end` loop of
`StageConfig.generate_announcements`: walk `current` down by the stage's
interval, snapping each candidate to the interval grid and keeping it iff it
is inside `(end_, total]`, positive, and not yet produced.

The loop is given explicit fuel so that it is structurally recursive: the
caller passes `start + 1`, which strictly exceeds the number of iterations
whenever the interval is positive (each iteration lowers `current` by at
least 1 and the condition requires `end_ < current`), so fuel exhaustion
never occurs under the data model's positive-interval invariant. An interval
of 0 would raise `ZeroDivisionError` in Python; here it exhausts the fuel and
exits, and the claims about this function assume positive intervals. -/
def stageLoop (stage : Stage) (total end_ : Nat) :
    Nat → Nat → List (Nat × String) → List Nat →
    List (Nat × String) × List Nat
  | 0, _, acc, processed => (acc, processed)
  | fuel + 1, current, acc, processed =>
    if end_ < current then
      let announcement_time :=
        current / stage.announcement_interval * stage.announcement_interval
      if end_ < announcement_time ∧ announcement_time ≤ total
          ∧ announcement_time ∉ processed ∧ 0 < announcement_time then
        stageLoop stage total end_ fuel (current - stage.announcement_interval)
          (acc ++ [(announcement_time, stage.format_announcement announcement_time)])
          (processed ++ [announcement_time])
      else
        stageLoop stage total end_ fuel (current - stage.announcement_interval)
          acc processed
    else (acc, processed)

/-- The body of the `for stage in self.stages` loop of
`StageConfig.generate_announcements`: determine the stage's window
`(end, start]` (the threshold-0 fallback stage starts at `total_seconds`,
others at `min(duration_threshold, total_seconds)`) and run the interval
walk on the accumulated state. -/
def stageStep (cfg : StageConfig) (total_seconds : Nat)
    (st : List (Nat × String) × List Nat) (stage : Stage) :
    List (Nat × String) × List Nat :=
  let end_ := cfg.getNextThreshold stage
  let start := if stage.duration_threshold = 0 then total_seconds
    else min stage.duration_threshold total_seconds
  stageLoop stage total_seconds end_ (start + 1) start st.1 st.2

/-- Embedding of `StageConfig.generate_announcements` (src/src/stage.py):
process every stage in order on the shared announcement/processed-times
state, then sort all produced announcements by remaining seconds
descending (stable, as Python's `list.sort`). -/
def StageConfig.generate_announcements (cfg : StageConfig) (total_seconds : Nat) :
    List (Nat × String) :=
  (cfg.stages.foldl (stageStep cfg total_seconds) ([], [])).1.insertionSort
    fun a b => b.1 ≤ a.1

/-- The `while current < total_seconds` collection loop of
`generate_announcement_intervals` (src/src/announcements.py), with explicit
fuel standing for the unbounded Python loop: each step appends `current` and
replaces it by `int(current * multiplier)` (exact for integer multipliers).
Running out of fuel returns the accumulator; the termination theorem for this
claim shows the result is fuel-independent once the fuel reaches the stated
bound, so the fuel choice in `generate_announcement_intervals` is immaterial
under the contract's preconditions. -/
def genIntervalsLoop (total : Int) (multiplier : Nat) :
    Nat → Int → List Int → List Int
  | 0, _, acc => acc
  | fuel + 1, current, acc =>
    if current < total then
      genIntervalsLoop total multiplier fuel (current * multiplier) (acc ++ [current])
    else acc

/-- Embedding of `generate_announcement_intervals` (src/src/announcements.py):
parse the shortest interval, return `[]` when `total_seconds` is below it,
otherwise collect the exponentially growing values below `total_seconds` and
sort them descending. Integer multipliers only (the claims state the integer
contract; `int(current * multiplier)` is then exact multiplication). -/
def generate_announcement_intervals (total_seconds : Int) (shortest_interval : String)
    (multiplier : Nat) : Except String (List Int) :=
  match parse_time_string shortest_interval with
  | .error e => .error e
  | .ok shortest_seconds =>
    if total_seconds < shortest_seconds then .ok []
    else
      .ok ((genIntervalsLoop total_seconds multiplier total_seconds.toNat
        shortest_seconds []).insertionSort fun a b => b ≤ a)

/-- Python `int()` truncation (toward zero) of a rational. -/
def pyTruncQ (q : ℚ) : Int := q.num.tdiv q.den

/-- Embedding of `AudioGenerator._generate_silence` (src/src/audio_generator.py)
at the fixed 22050 Hz sample rate: `int(duration_seconds * SAMPLE_RATE)`
zero samples. -/
def generate_silence (duration_seconds : ℚ) : List Int :=
  List.replicate (pyTruncQ (duration_seconds * 22050)).toNat 0

/-- The speech-synthesis capability, as the spec treats it: "render text to
mono PCM at a given rate, returning samples and duration"; `none` models the
backend raising an exception. -/
def TTSBackend : Type := String → Nat → Option (List Int × ℚ)

/-- The always-failing backend (spec §7: "the synthesis capability always
fails"). -/
def ttsFail : TTSBackend := fun _ _ => none

/-- Embedding of `AudioGenerator._generate_speech_audio`
(src/src/audio_generator.py): on success, the synthesized samples and their
real duration; on any synthesis exception, 0.5 seconds of silence with
duration 0.5. -/
def generate_speech_audio (tts : TTSBackend) (text : String) (rate : Nat) :
    List Int × ℚ :=
  match tts text rate with
  | some r => r
  | none => (generate_silence (1 / 2 : ℚ), (1 / 2 : ℚ))

/-- Python `str.isdigit()` for ASCII: nonempty and all digits. -/
def pyIsDigitStr (s : String) : Bool :=
  !s.data.isEmpty && s.data.all Char.isDigit

/-- The rate-selection test in `generate_timer_audio`:
`text.isdigit() or (len(text) <= 2 and text.replace(" ", "").isdigit())`. -/
def countdownRateText (text : String) : Bool :=
  pyIsDigitStr text
    || (decide (text.length ≤ 2)
        && pyIsDigitStr (String.mk (text.data.filter fun c => c ≠ ' ')))

/-- The announcement loop of `AudioGenerator.generate_timer_audio`
(src/src/audio_generator.py): for each announcement (already sorted by
remaining seconds descending), fill silence up to its elapsed-time position
when the gap is positive (advancing the cursor), then append the synthesized
speech and advance the cursor by its duration. State is
`(audio samples, cursor position in seconds)`. -/
def renderAnns (tts : TTSBackend) (rateN rateC : Nat) (total : Nat) :
    List (Nat × String) → List Int × ℚ → List Int × ℚ
  | [], st => st
  | (remaining_seconds, text) :: rest, (audio, pos) =>
    let announcement_time : ℚ := (total : ℚ) - (remaining_seconds : ℚ)
    let silence_duration := announcement_time - pos
    let st1 : List Int × ℚ :=
      if 0 < silence_duration then
        (audio ++ generate_silence silence_duration, announcement_time)
      else (audio, pos)
    let rate := if countdownRateText text then rateC else rateN
    let sp := generate_speech_audio tts text rate
    renderAnns tts rateN rateC total rest (st1.1 ++ sp.1, st1.2 + sp.2)

/-- Embedding of `AudioGenerator.generate_timer_audio`
(src/src/audio_generator.py): sort the announcements by remaining seconds
descending, run the announcement loop from cursor 0, append trailing silence
up to `total_seconds` if the cursor has not overshot, then optionally append
the synthesized "Finished" announcement. Returns the samples and the final
cursor (the track duration). -/
def generate_timer_audio (tts : TTSBackend) (rateN rateC : Nat)
    (total_seconds : Nat) (announcements : List (Nat × String))
    (include_finished : Bool) : List Int × ℚ :=
  let sorted_announcements := announcements.insertionSort fun a b => b.1 ≤ a.1
  let st := renderAnns tts rateN rateC total_seconds sorted_announcements ([], 0)
  let remaining_silence := (total_seconds : ℚ) - st.2
  let st2 :=
    if 0 < remaining_silence then
      (st.1 ++ generate_silence remaining_silence, (total_seconds : ℚ))
    else st
  if include_finished then
    let sp := generate_speech_audio tts "Finished" rateN
    (st2.1 ++ sp.1, st2.2 + sp.2)
  else st2

/-- The "every speech segment fits before the next announcement's position"
condition for a render: starting from cursor `pos`, each announcement's
elapsed-time position is not before the cursor, and the cursor after speaking
it (its position plus its synthesized duration) still fits the rest; at the
end the cursor is within `total_seconds`. -/
def fitsFrom (tts : TTSBackend) (rateN rateC : Nat) (total : Nat) :
    ℚ → List (Nat × String) → Bool
  | pos, [] => decide (pos ≤ (total : ℚ))
  | pos, (remaining_seconds, text) :: rest =>
    let announcement_time : ℚ := (total : ℚ) - (remaining_seconds : ℚ)
    let rate := if countdownRateText text then rateC else rateN
    decide (pos ≤ announcement_time)
      && fitsFrom tts rateN rateC total
        (announcement_time + (generate_speech_audio tts text rate).2) rest

/-- The spec's words for the `format_time` rendering (spec §4.2/§8): the
"expected zero-padded `MM:SS`" of a nonnegative second count, minutes
unbounded, seconds the count modulo 60. Stated separately from the source
embedding so that C9 compares the two. -/
def mmssSpec (n : Nat) : String :=
  zeroPad 2 (Nat.repr (n / 60)) ++ ":" ++ zeroPad 2 (Nat.repr (n % 60))

/-! ## Claims -/

/-- C1: for `total_seconds = 130` and the default three-stage configuration,
the generated schedule contains `(60, "1 minute remaining")` and
`(10, "10")`, contains an announcement at every remaining time 9 down to 1,
has no two entries sharing a `remaining_seconds` value, and has no entry
whose `remaining_seconds` exceeds 130. -/
theorem c1_default_130_schedule :
    ((60 : Nat), "1 minute remaining") ∈ StageConfig.default.generate_announcements 130
    ∧ ((10 : Nat), "10") ∈ StageConfig.default.generate_announcements 130
    ∧ (∀ t ∈ [9, 8, 7, 6, 5, 4, 3, 2, 1],
        t ∈ (StageConfig.default.generate_announcements 130).map Prod.fst)
    ∧ ((StageConfig.default.generate_announcements 130).map Prod.fst).Nodup
    ∧ (∀ p ∈ StageConfig.default.generate_announcements 130, p.1 ≤ 130) := by
  decide

/-- C2 counterexample: the grammar-valid string `"0s"` does not parse to 0;
the seconds pattern matches but contributes 0, so the code takes the
bare-integer fallback on `"0s"` and raises. -/
theorem c2_zero_s_counterexample :
    parse_time_string "0s" = .error "Invalid time format: 0s" := rfl

/-- Path characterization of `parse_time_string`: the unit-component branch
is taken iff the summed components are positive; otherwise the result is
exactly the bare-integer fallback on the normalized string. -/
theorem parse_time_string_path (s : String) :
    (0 < unitSum s → parse_time_string s = .ok (unitSum s : Int))
    ∧ (unitSum s = 0 →
        parse_time_string s =
          match pyInt (normalize s) with
          | some n => .ok n
          | none => .error ("Invalid time format: " ++ String.mk (normalize s))) := by
  unfold parse_time_string unitSum
  constructor
  · intro h
    rw [if_neg (Nat.pos_iff_ne_zero.mp h)]
  · intro h
    rw [if_pos h]

/-- C2 (amended): `parse_time_string` returns the summed unit components
without the bare-integer fallback whenever that sum is positive; the fallback
is taken exactly when the sum is 0 — including when unit patterns matched
with all-zero values — not exactly when no pattern matched. -/
theorem c2_unit_sum_path (s : String) :
    (0 < unitSum s → parse_time_string s = .ok (unitSum s : Int))
    ∧ (unitSum s = 0 →
        parse_time_string s =
          match pyInt (normalize s) with
          | some n => .ok n
          | none => .error ("Invalid time format: " ++ String.mk (normalize s))) :=
  parse_time_string_path s

/-- C2 witness: the amended theorem applied at `"5s"`. -/
theorem c2_unit_sum_path_witness :
    parse_time_string "5s" = .ok (unitSum "5s" : Int) :=
  (c2_unit_sum_path "5s").1 (by decide)

/-- C3 counterexample: at 30 seconds the claim demands the phrase
`"30 seconds remaining"`, but `format_time_announcement` (unlike
`Stage.format_announcement`) returns `"30 seconds"` with no `"remaining"`
suffix. -/
theorem c3_no_remaining_counterexample :
    format_time_announcement 30 = "30 seconds"
    ∧ format_time_announcement 30 ≠ "30 seconds remaining" := by
  decide

/-- C3 (amended): `format_time_announcement` renders exactly the claimed
minute/second phrase — singular exactly for count 1, seconds clause omitted
exactly when the remainder modulo 60 is 0 — but without the trailing
`" remaining"` the claim asserts. -/
theorem c3_announcement_phrase (n : Nat) :
    (60 ≤ n → format_time_announcement n =
      Nat.repr (n / 60) ++ " " ++ (if n / 60 = 1 then "minute" else "minutes")
        ++ (if n % 60 = 0 then ""
            else " " ++ Nat.repr (n % 60) ++ " "
              ++ (if n % 60 = 1 then "second" else "seconds")))
    ∧ (n < 60 → format_time_announcement n =
        Nat.repr n ++ " " ++ (if n = 1 then "second" else "seconds")) := by
  unfold format_time_announcement
  constructor
  · intro h
    rw [if_pos h]
    simp only [String.append_assoc, String.append_empty]
    split_ifs <;> rfl
  · intro h
    rw [if_neg (by omega)]

/-- C3 witness: the amended theorem applied at 75 seconds. -/
theorem c3_announcement_phrase_witness :
    format_time_announcement 75 =
      Nat.repr (75 / 60) ++ " " ++ (if 75 / 60 = 1 then "minute" else "minutes")
        ++ (if 75 % 60 = 0 then ""
            else " " ++ Nat.repr (75 % 60) ++ " "
              ++ (if 75 % 60 = 1 then "second" else "seconds")) :=
  (c3_announcement_phrase 75).1 (by decide)

/-- C6: the legacy exponential scheduler returns `[]` when `total_seconds`
is below the parsed shortest interval, and on the spec's example
`(100, "15s", 2)` returns exactly `[60, 30, 15]` (15, 30, 60 collected while
below 100; 120 excluded; sorted descending). -/
theorem c6_exponential_intervals :
    (∀ (total : Int) (short : String) (mult : Nat) (s : Int),
      parse_time_string short = .ok s → total < s →
      generate_announcement_intervals total short mult = .ok [])
    ∧ generate_announcement_intervals 100 "15s" 2 = .ok [60, 30, 15] := by
  refine ⟨fun total short mult s hp hlt => ?_, rfl⟩
  unfold generate_announcement_intervals
  rw [hp]
  simp [hlt]

/-- C6 witness: both conjuncts instantiated, the first at
`(10, "15s", 2)` whose total is below the parsed 15. -/
theorem c6_exponential_intervals_witness :
    generate_announcement_intervals 10 "15s" 2 = .ok [] :=
  c6_exponential_intervals.1 10 "15s" 2 15 rfl (by decide)

/-- C7 counterexample: `parse_time_string "-5"` returns `-5` through the
bare-integer fallback, so the result can be negative, contrary to the
claim's "the result is never negative". -/
theorem c7_negative_counterexample :
    parse_time_string "-5" = .ok (-5) ∧ (-5 : Int) < 0 :=
  ⟨rfl, by decide⟩

/-- C7 (amended): `parse_time_string` either returns an integer or raises a
format error and never silently defaults; it raises exactly when the unit
component sum is zero and the normalized string is not a bare Python integer
literal; the result is nonnegative whenever some unit component contributed,
but the bare-integer fallback can yield a negative value (e.g. `"-5"`). -/
theorem c7_error_behavior (s : String) :
    ((parse_time_string s).isOk = true
      ↔ 0 < unitSum s ∨ (pyInt (normalize s)).isSome = true)
    ∧ (∀ n : Int, parse_time_string s = .ok n → 0 < unitSum s → 0 ≤ n)
    ∧ (∀ e, parse_time_string s = .error e →
        unitSum s = 0 ∧ pyInt (normalize s) = none) := by
  have hu := parse_time_string_path s
  rcases Nat.eq_zero_or_pos (unitSum s) with h0 | hpos
  · have h2 := hu.2 h0
    refine ⟨?_, ?_, ?_⟩
    · rw [h2, h0]
      cases hp : pyInt (normalize s) <;> simp [Except.isOk, Except.toBool]
    · intro n _ hpos
      omega
    · intro e he
      rw [h2] at he
      cases hp : pyInt (normalize s) with
      | none => exact ⟨h0, rfl⟩
      | some v => rw [hp] at he; exact absurd he (by simp)
  · have h1 := hu.1 hpos
    refine ⟨?_, ?_, ?_⟩
    · rw [h1]
      simp [Except.isOk, Except.toBool, hpos]
    · intro n hn _
      rw [h1] at hn
      cases hn
      exact Int.ofNat_nonneg _
    · intro e he
      rw [h1] at he
      exact absurd he (by simp)

/-- C7 witness: the amended theorem applied at `"2m30s"`. -/
theorem c7_error_behavior_witness : (parse_time_string "2m30s").isOk = true :=
  (c7_error_behavior "2m30s").1.mpr (Or.inl (by decide))

/-- C9: for every valid (successfully parsed, nonnegative) time string,
`format_time` of the parsed count is the spec's zero-padded `MM:SS`
rendering; in particular `"2m30s"` parses to 150 and formats to
`"02:30"`. -/
theorem c9_parse_format_roundtrip :
    (∀ (s : String) (n : Int), parse_time_string s = .ok n → 0 ≤ n →
      format_time n = mmssSpec n.toNat)
    ∧ parse_time_string "2m30s" = .ok 150 ∧ format_time 150 = "02:30" := by
  refine ⟨fun s n _ hn => ?_, rfl, rfl⟩
  obtain ⟨m, rfl⟩ := Int.eq_ofNat_of_zero_le hn
  have h1 : Int.fdiv (m : Int) (60 : Int) = ((m / 60 : Nat) : Int) := by
    simpa using (Int.ofNat_fdiv m 60).symm
  have h2 : Int.fmod (m : Int) (60 : Int) = ((m % 60 : Nat) : Int) := by
    simpa using (Int.ofNat_fmod m 60).symm
  have g1 : ¬(((m / 60 : Nat) : Int) < 0) := by omega
  have g2 : ¬(((m % 60 : Nat) : Int) < 0) := by omega
  unfold format_time mmssSpec pad02
  rw [h1, h2]
  simp only [if_neg g1, if_neg g2, Int.natAbs_ofNat, Int.toNat_ofNat]

/-- C9 witness: the general conjunct applied at `"2m30s"`. -/
theorem c9_parse_format_roundtrip_witness :
    format_time 150 = mmssSpec (150 : Int).toNat :=
  c9_parse_format_roundtrip.1 "2m30s" 150 rfl (by decide)

/-- Invariant preservation by the per-stage interval walk: if every
accumulated announcement is positive and within `total`, accumulated keys
are distinct, and every accumulated key was recorded in `processed`, the
same holds after the walk. -/
theorem stageLoop_inv (stage : Stage) (total end_ : Nat) :
    ∀ (fuel current : Nat) (acc : List (Nat × String)) (processed : List Nat),
      (∀ p ∈ acc, 0 < p.1 ∧ p.1 ≤ total) →
      (acc.map Prod.fst).Nodup →
      (∀ p ∈ acc, p.1 ∈ processed) →
      (∀ p ∈ (stageLoop stage total end_ fuel current acc processed).1,
          0 < p.1 ∧ p.1 ≤ total)
      ∧ ((stageLoop stage total end_ fuel current acc processed).1.map Prod.fst).Nodup
      ∧ (∀ p ∈ (stageLoop stage total end_ fuel current acc processed).1,
          p.1 ∈ (stageLoop stage total end_ fuel current acc processed).2) := by
  intro fuel
  induction fuel with
  | zero => exact fun current acc processed h1 h2 h3 => ⟨h1, h2, h3⟩
  | succ fuel ih =>
    intro current acc processed h1 h2 h3
    simp only [stageLoop]
    split_ifs with hc hk
    · apply ih
      · intro p hp
        rcases List.mem_append.mp hp with hp | hp
        · exact h1 p hp
        · rw [List.mem_singleton.mp hp]
          exact ⟨hk.2.2.2, hk.2.1⟩
      · simp only [List.map_append, List.map_cons, List.map_nil]
        rw [List.nodup_append]
        refine ⟨h2, List.nodup_singleton _, ?_⟩
        intro a ha hb
        rw [List.mem_singleton.mp hb] at ha
        obtain ⟨p, hp, hpa⟩ := List.mem_map.mp ha
        exact hk.2.2.1 (hpa ▸ h3 p hp)
      · intro p hp
        rcases List.mem_append.mp hp with hp | hp
        · exact List.mem_append_left _ (h3 p hp)
        · rw [List.mem_singleton.mp hp]
          exact List.mem_append_right _ (List.mem_singleton.mpr rfl)
    · exact ih (current - stage.announcement_interval) acc processed h1 h2 h3
    · exact ⟨h1, h2, h3⟩

/-- Invariant preservation by the whole stage fold. -/
theorem foldStages_inv (cfg : StageConfig) (total : Nat) :
    ∀ (stages : List Stage) (st : List (Nat × String) × List Nat),
      (∀ p ∈ st.1, 0 < p.1 ∧ p.1 ≤ total) →
      (st.1.map Prod.fst).Nodup →
      (∀ p ∈ st.1, p.1 ∈ st.2) →
      (∀ p ∈ (stages.foldl (stageStep cfg total) st).1, 0 < p.1 ∧ p.1 ≤ total)
      ∧ ((stages.foldl (stageStep cfg total) st).1.map Prod.fst).Nodup
      ∧ (∀ p ∈ (stages.foldl (stageStep cfg total) st).1,
          p.1 ∈ (stages.foldl (stageStep cfg total) st).2) := by
  intro stages
  induction stages with
  | nil => exact fun st h1 h2 h3 => ⟨h1, h2, h3⟩
  | cons stage rest ih =>
    intro st h1 h2 h3
    simp only [List.foldl_cons]
    apply ih
    · exact (stageLoop_inv stage total _ _ _ _ _ h1 h2 h3).1
    · exact (stageLoop_inv stage total _ _ _ _ _ h1 h2 h3).2.1
    · exact (stageLoop_inv stage total _ _ _ _ _ h1 h2 h3).2.2

/-- With `total_seconds = 0`, every stage's window collapses, so the fold
leaves the state untouched. -/
theorem foldStages_zero (cfg : StageConfig) :
    ∀ (stages : List Stage) (st : List (Nat × String) × List Nat),
      stages.foldl (stageStep cfg 0) st = st := by
  intro stages
  induction stages with
  | nil => exact fun _ => rfl
  | cons stage rest ih =>
    intro st
    have hstep : stageStep cfg 0 st stage = st := by
      simp only [stageStep]
      have hstart :
          (if stage.duration_threshold = 0 then 0
            else min stage.duration_threshold 0) = 0 := by
        split_ifs <;> simp
      rw [hstart]
      simp only [stageLoop]
      rw [if_neg (Nat.not_lt_zero _)]
    simp only [List.foldl_cons, hstep, ih]

/-- C5: for every stage configuration with positive announcement intervals
(the data model's invariant; a zero interval would raise
`ZeroDivisionError` in the source) and every duration, the generated
schedule is strictly descending in `remaining_seconds` (hence duplicate
free), every entry `t` satisfies `0 < t ≤ total_seconds`, and duration 0
yields the empty schedule. -/
theorem c5_schedule_invariants (cfg : StageConfig) (total : Nat)
    (hint : ∀ st ∈ cfg.stages, 0 < st.announcement_interval) :
    ((cfg.generate_announcements total).Pairwise fun a b => b.1 < a.1)
    ∧ (∀ p ∈ cfg.generate_announcements total, 0 < p.1 ∧ p.1 ≤ total)
    ∧ ((cfg.generate_announcements total).map Prod.fst).Nodup
    ∧ cfg.generate_announcements 0 = [] := by
  have hinv := foldStages_inv cfg total cfg.stages ([], [])
    (by intro p hp; cases hp) (by simp) (by intro p hp; cases hp)
  unfold StageConfig.generate_announcements
  set base := (cfg.stages.foldl (stageStep cfg total) ([], [])).1 with hbase
  have hperm : List.Perm (base.insertionSort fun a b => b.1 ≤ a.1) base :=
    List.perm_insertionSort _ _
  have hmem : ∀ p ∈ base.insertionSort (fun a b => b.1 ≤ a.1), p ∈ base :=
    fun p hp => hperm.mem_iff.mp hp
  have hnodup : ((base.insertionSort fun a b => b.1 ≤ a.1).map Prod.fst).Nodup :=
    ((hperm.map Prod.fst).nodup_iff).mpr hinv.2.1
  have hsorted : (base.insertionSort fun a b => b.1 ≤ a.1).Pairwise
      fun a b => b.1 ≤ a.1 := by
    haveI : IsTotal (Nat × String) (fun a b => b.1 ≤ a.1) :=
      ⟨fun a b => le_total b.1 a.1⟩
    haveI : IsTrans (Nat × String) (fun a b => b.1 ≤ a.1) :=
      ⟨fun _ _ _ hab hbc => le_trans hbc hab⟩
    exact List.sorted_insertionSort _ _
  refine ⟨?_, fun p hp => hinv.1 p (hmem p hp), hnodup, ?_⟩
  · have hne : (base.insertionSort fun a b => b.1 ≤ a.1).Pairwise
        fun a b => a.1 ≠ b.1 := List.pairwise_map.mp hnodup
    exact (hsorted.and hne).imp fun h => lt_of_le_of_ne h.1 (Ne.symm h.2)
  · rw [foldStages_zero]
    rfl

/-- C5 witness: the invariants instantiated at the default configuration
and 130 seconds. -/
theorem c5_schedule_invariants_witness :
    (∀ st ∈ StageConfig.default.stages, 0 < st.announcement_interval)
    ∧ ((StageConfig.default.generate_announcements 130).Pairwise
        fun a b => b.1 < a.1)
    ∧ (∀ p ∈ StageConfig.default.generate_announcements 130, 0 < p.1 ∧ p.1 ≤ 130)
    ∧ ((StageConfig.default.generate_announcements 130).map Prod.fst).Nodup
    ∧ StageConfig.default.generate_announcements 0 = [] := by
  have h := c5_schedule_invariants StageConfig.default 130 (by decide)
  exact ⟨by decide, h.1, h.2.1, h.2.2.1, h.2.2.2⟩

/-- Fuel-independence of the legacy collection loop under the contract's
preconditions: with an integer multiplier at least 2 and a positive current
value, any two fuels exceeding `(total - current).toNat` give the same
result — the loop reaches its exit, since each iteration at least doubles
`current`, which is bounded by `total` while iterating. -/
theorem genIntervalsLoop_stable (total : Int) (mult : Nat) (hmult : 2 ≤ mult) :
    ∀ (n : Nat) (current : Int), 1 ≤ current → (total - current).toNat = n →
      ∀ (f g : Nat) (acc : List Int), n < f → n < g →
      genIntervalsLoop total mult f current acc
        = genIntervalsLoop total mult g current acc := by
  intro n
  induction n using Nat.strong_induction_on with
  | _ n ih =>
    intro current hcur hn f g acc hf hg
    obtain ⟨f', rfl⟩ : ∃ f', f = f' + 1 := ⟨f - 1, by omega⟩
    obtain ⟨g', rfl⟩ : ∃ g', g = g' + 1 := ⟨g - 1, by omega⟩
    simp only [genIntervalsLoop]
    split_ifs with hlt
    · have h2 : (2 : Int) ≤ (mult : Int) := by exact_mod_cast hmult
      have hmul : current * 2 ≤ current * (mult : Int) :=
        mul_le_mul_of_nonneg_left h2 (by omega)
      exact ih ((total - current * (mult : Int)).toNat) (by omega)
        (current * (mult : Int)) (by omega) rfl f' g' _ (by omega) (by omega)
    · rfl

/-- With multiplier 1 the loop makes no progress: below `total` it appends
the same value once per unit of fuel and never reaches its exit — the
unbounded Python loop diverges. -/
theorem genIntervalsLoop_one (total : Int) :
    ∀ (f : Nat) (current : Int) (acc : List Int), current < total →
      genIntervalsLoop total 1 f current acc = acc ++ List.replicate f current := by
  intro f
  induction f with
  | zero => intro current acc _; simp [genIntervalsLoop]
  | succ f ih =>
    intro current acc h
    simp only [genIntervalsLoop]
    rw [if_pos h]
    have hone : current * ((1 : Nat) : Int) = current := by simp
    rw [hone, ih current (acc ++ [current]) h]
    simp [List.replicate_succ]

/-- C10: under the contract's implicit preconditions (integer multiplier at
least 2, positive shortest interval) the legacy collection loop terminates —
its result stabilizes once the fuel exceeds `(total - current).toNat`, each
iteration at least doubling the current value — while for multiplier 1 the
loop never exits: below `total` it consumes every unit of fuel, appending
the unchanged current value each time. -/
theorem c10_legacy_loop_termination :
    (∀ (total : Int) (mult : Nat) (current : Int) (acc : List Int) (f g : Nat),
      2 ≤ mult → 1 ≤ current →
      (total - current).toNat < f → (total - current).toNat < g →
      genIntervalsLoop total mult f current acc
        = genIntervalsLoop total mult g current acc)
    ∧ (∀ (total current : Int) (acc : List Int) (f : Nat), current < total →
      genIntervalsLoop total 1 f current acc = acc ++ List.replicate f current) :=
  ⟨fun total mult current acc f g hm hc hf hg =>
    genIntervalsLoop_stable total mult hm ((total - current).toNat)
      current hc rfl f g acc hf hg,
   fun total current acc f h => genIntervalsLoop_one total f current acc h⟩

/-- C10 witness: stabilization applied at `(100, mult 2, current 15)` with
fuels 86 and 100, and divergence applied at multiplier 1. -/
theorem c10_legacy_loop_termination_witness :
    genIntervalsLoop 100 2 86 15 [] = genIntervalsLoop 100 2 100 15 []
    ∧ genIntervalsLoop 100 1 3 15 [] = [] ++ List.replicate 3 15 :=
  ⟨c10_legacy_loop_termination.1 100 2 15 [] 86 100 (by decide) (by decide)
      (by decide) (by decide),
   c10_legacy_loop_termination.2 100 15 [] 3 (by decide)⟩

/-- Synthesized durations are nonnegative whenever the backend reports
nonnegative durations: the 0.5-second failure placeholder keeps this. -/
theorem speech_dur_nonneg (tts : TTSBackend)
    (hdur : ∀ t r x, tts t r = some x → 0 ≤ x.2) (text : String) (rate : Nat) :
    0 ≤ (generate_speech_audio tts text rate).2 := by
  unfold generate_speech_audio
  cases h : tts text rate with
  | some x => exact hdur _ _ _ h
  | none => norm_num

/-- If every speech segment fits before the next announcement's position
(and the last before `total`), the announcement loop leaves the cursor at
or below `total`. -/
theorem renderAnns_fits (tts : TTSBackend) (rateN rateC total : Nat) :
    ∀ (l : List (Nat × String)) (audio : List Int) (pos : ℚ),
      fitsFrom tts rateN rateC total pos l = true →
      (renderAnns tts rateN rateC total l (audio, pos)).2 ≤ (total : ℚ) := by
  intro l
  induction l with
  | nil =>
    intro audio pos h
    simp only [fitsFrom, decide_eq_true_eq] at h
    simpa [renderAnns] using h
  | cons p rest ih =>
    obtain ⟨remaining, text⟩ := p
    intro audio pos h
    simp only [fitsFrom, Bool.and_eq_true, decide_eq_true_eq] at h
    obtain ⟨hpos, hrest⟩ := h
    simp only [renderAnns]
    by_cases hs : 0 < ((total : ℚ) - (remaining : ℚ)) - pos
    · rw [if_pos hs]
      exact ih _ _ hrest
    · have heq : pos = (total : ℚ) - (remaining : ℚ) := by linarith
      rw [if_neg hs]
      simp only
      rw [heq]
      exact ih _ _ hrest

/-- The returned duration of a render is never below `total_seconds`: the
trailing fill tops the cursor up to exactly `total_seconds` whenever it has
not overshot, and the optional "Finished" utterance only adds nonnegative
duration. -/
theorem timer_audio_ge_total (tts : TTSBackend)
    (hdur : ∀ t r x, tts t r = some x → 0 ≤ x.2)
    (rateN rateC total : Nat) (anns : List (Nat × String)) (incl : Bool) :
    (total : ℚ) ≤ (generate_timer_audio tts rateN rateC total anns incl).2 := by
  have hsp : 0 ≤ (generate_speech_audio tts "Finished" rateN).2 :=
    speech_dur_nonneg tts hdur "Finished" rateN
  unfold generate_timer_audio
  simp only
  set st := renderAnns tts rateN rateC total
    (anns.insertionSort fun a b => b.1 ≤ a.1) ([], 0) with hst
  set st2 := if 0 < (total : ℚ) - st.2 then
      (st.1 ++ generate_silence ((total : ℚ) - st.2), (total : ℚ))
    else st with hst2
  have h2 : (total : ℚ) ≤ st2.2 := by
    rw [hst2]
    by_cases hc : 0 < (total : ℚ) - st.2
    · rw [if_pos hc]
    · rw [if_neg hc]
      have := not_lt.mp hc
      linarith
  cases incl with
  | false => simpa using h2
  | true =>
    simp only [if_pos rfl]
    exact le_trans h2 (le_add_of_nonneg_right hsp)

/-- C4: for every backend reporting nonnegative durations, every duration
and announcement list, the duration returned with `include_finished = false`
equals `total_seconds` exactly whenever every speech segment fits before the
next announcement's position (the trailing silence tops the cursor up to
exactly `total_seconds` since it has not overshot); with
`include_finished = true` the returned duration is at least
`total_seconds`. -/
theorem c4_render_duration (tts : TTSBackend) (rateN rateC total : Nat)
    (anns : List (Nat × String))
    (hdur : ∀ t r x, tts t r = some x → 0 ≤ x.2) :
    (fitsFrom tts rateN rateC total 0
        (anns.insertionSort fun a b => b.1 ≤ a.1) = true →
      (generate_timer_audio tts rateN rateC total anns false).2 = (total : ℚ))
    ∧ (total : ℚ) ≤ (generate_timer_audio tts rateN rateC total anns true).2 := by
  refine ⟨fun hfits => ?_, timer_audio_ge_total tts hdur rateN rateC total anns true⟩
  have hle : (renderAnns tts rateN rateC total
      (anns.insertionSort fun a b => b.1 ≤ a.1) ([], 0)).2 ≤ (total : ℚ) :=
    renderAnns_fits tts rateN rateC total _ _ _ hfits
  unfold generate_timer_audio
  simp only
  set st := renderAnns tts rateN rateC total
    (anns.insertionSort fun a b => b.1 ≤ a.1) ([], 0) with hst
  by_cases hc : 0 < (total : ℚ) - st.2
  · rw [if_pos hc]
    simp
  · rw [if_neg hc]
    simp only [Bool.false_eq_true, if_false]
    have := not_lt.mp hc
    linarith

/-- C4 witness: a backend with unit durations, `total = 10`, one
announcement at remaining 5 — the fit condition holds, the duration without
"Finished" is exactly 10 and with "Finished" at least 10. -/
theorem c4_render_duration_witness :
    (generate_timer_audio (fun _ _ => some ([], 1)) 180 250 10 [(5, "hi")] false).2
      = (10 : ℚ)
    ∧ (10 : ℚ) ≤
      (generate_timer_audio (fun _ _ => some ([], 1)) 180 250 10 [(5, "hi")] true).2 := by
  have h := c4_render_duration (fun _ _ => some ([], 1)) 180 250 10 [(5, "hi")]
    (fun t r x hx => by cases hx; norm_num)
  exact ⟨h.1 (by with_unfolding_all decide), h.2⟩

/-- With the always-failing backend the announcement loop only ever appends
silence, so an all-zero sample buffer stays all-zero. -/
theorem renderAnns_ttsFail_zero (rateN rateC total : Nat) :
    ∀ (l : List (Nat × String)) (audio : List Int) (pos : ℚ),
      (∀ x ∈ audio, x = 0) →
      ∀ x ∈ (renderAnns ttsFail rateN rateC total l (audio, pos)).1, x = 0 := by
  intro l
  induction l with
  | nil => intro audio pos h; simpa [renderAnns] using h
  | cons p rest ih =>
    obtain ⟨remaining, text⟩ := p
    intro audio pos h
    simp only [renderAnns]
    have hz : ∀ d : ℚ, ∀ x ∈ generate_silence d, x = 0 := by
      intro d x hx
      exact List.eq_of_mem_replicate hx
    have hsp : ∀ x ∈ (generate_speech_audio ttsFail text
        (if countdownRateText text = true then rateC else rateN)).1, x = 0 := by
      intro x hx
      exact hz _ _ hx
    by_cases hs : 0 < ((total : ℚ) - (remaining : ℚ)) - pos
    · rw [if_pos hs]
      apply ih
      intro x hx
      simp only [List.mem_append] at hx
      rcases hx with (hx | hx) | hx
      · exact h x hx
      · exact hz _ _ hx
      · exact hsp x (by simpa using hx)
    · rw [if_neg hs]
      apply ih
      intro x hx
      simp only [List.mem_append] at hx
      rcases hx with hx | hx
      · exact h x hx
      · exact hsp x (by simpa using hx)

/-- C8: a failed synthesis is replaced by the 0.5-second silence placeholder
and the batch continues; with the always-failing backend every render still
completes with a full-length, all-silent track (duration at least
`total_seconds`, every sample zero), never aborting. -/
theorem c8_synthesis_failure_recovery :
    (∀ (tts : TTSBackend) (text : String) (rate : Nat), tts text rate = none →
      generate_speech_audio tts text rate
        = (generate_silence (1 / 2 : ℚ), (1 / 2 : ℚ)))
    ∧ (∀ (rateN rateC total : Nat) (anns : List (Nat × String)) (incl : Bool),
        (total : ℚ) ≤ (generate_timer_audio ttsFail rateN rateC total anns incl).2
        ∧ ∀ x ∈ (generate_timer_audio ttsFail rateN rateC total anns incl).1,
            x = 0) := by
  constructor
  · intro tts text rate h
    unfold generate_speech_audio
    rw [h]
  · intro rateN rateC total anns incl
    have hz : ∀ d : ℚ, ∀ x ∈ generate_silence d, x = 0 := by
      intro d x hx
      exact List.eq_of_mem_replicate hx
    refine ⟨timer_audio_ge_total ttsFail (fun t r x hx => by cases hx)
      rateN rateC total anns incl, ?_⟩
    have hbase : ∀ x ∈ (renderAnns ttsFail rateN rateC total
        (anns.insertionSort fun a b => b.1 ≤ a.1) ([], 0)).1, x = 0 :=
      renderAnns_ttsFail_zero rateN rateC total _ [] 0 (by intro x hx; cases hx)
    unfold generate_timer_audio
    simp only
    set st := renderAnns ttsFail rateN rateC total
      (anns.insertionSort fun a b => b.1 ≤ a.1) ([], 0) with hst
    set st2 := if 0 < (total : ℚ) - st.2 then
        (st.1 ++ generate_silence ((total : ℚ) - st.2), (total : ℚ))
      else st with hst2
    have h2 : ∀ x ∈ st2.1, x = 0 := by
      rw [hst2]
      by_cases hc : 0 < (total : ℚ) - st.2
      · rw [if_pos hc]
        intro x hx
        rcases List.mem_append.mp hx with hx | hx
        · exact hbase x hx
        · exact hz _ _ hx
      · rw [if_neg hc]
        exact hbase
    have hfin : ∀ x ∈ (generate_speech_audio ttsFail "Finished" rateN).1, x = 0 :=
      fun x hx => hz _ _ hx
    cases incl with
    | false => simpa using h2
    | true =>
      simp only [if_pos rfl]
      intro x hx
      rcases List.mem_append.mp hx with hx | hx
      · exact h2 x hx
      · exact hfin x hx

/-- C8 witness: the placeholder substitution applied to the failing
backend. -/
theorem c8_synthesis_failure_recovery_witness :
    generate_speech_audio ttsFail "10" 250
      = (generate_silence (1 / 2 : ℚ), (1 / 2 : ℚ)) :=
  c8_synthesis_failure_recovery.1 ttsFail "10" 250 rfl

end Timer
